import Mathlib

/-!
Verification of the aggregation-cache / rate-limit layer of the rudiment
dashboard (`src/dashboard-server.ts` and the EmailBison/SEND replies cache in
`src/services/slack.service.ts`).

The development shallowly embeds, from the TypeScript source:
* `withRetry` (dashboard-server.ts, lines 201-218);
* the TTL cache + in-flight coalescer of `fetchClientMetrics`
  (dashboard-server.ts, lines 276-478), as a small event system that mirrors
  the single-threaded, cooperatively scheduled execution of node;
* the HeyReach per-campaign stats warmer `refreshHeyReachPerCampaignStats`
  (dashboard-server.ts, lines 70-198) and its trigger in the `/api/campaigns`
  handler (lines 854-873);
* the filtered replies stream page cache `getFilteredRepliesStreamPage`
  (slack.service.ts, lines 814-890) together with the clamp helpers
  `getRepliesMaxRawPages` and `getRepliesCacheTtlMs`.

Timestamps (`Date.now()`), durations and metric values are modelled as `Nat`.
-/

deriving instance DecidableEq for Except

namespace Dashboard

/-! ## Retry with backoff (`withRetry`, dashboard-server.ts lines 201-218) -/

/-- An error thrown by an upstream call.  `status` models
`e?.response?.status`: `none` when the error carries no HTTP response. -/
structure UpstreamErr where
  status : Option Nat
deriving DecidableEq, Repr

/-- `retryable` classification of `withRetry` (line 209):
`status === 429 || status === 502 || status === 503 || status === 504`. -/
def isRetryable (e : UpstreamErr) : Bool :=
  e.status = some 429 || e.status = some 502 || e.status = some 503 || e.status = some 504

/-- Observable trace of one `withRetry` run: the returned / thrown result, the
number of attempts actually made, and the list of sleep delays (in ms, in
order; `delays.length = attempts - 1`). -/
structure RetryTrace (α : Type) where
  result : Except UpstreamErr α
  attempts : Nat
  delays : List Nat

/-- The `for (let attempt = 1; attempt <= tries; attempt++)` loop of
`withRetry`.  `outcomes k` is what `fn()` does on its k-th invocation
(attempts are numbered from 1).  `fuel` is the number of attempts still
allowed (`tries - attempt + 1`); the loop retries exactly when the error is
retryable and this is not the last attempt, sleeping `baseDelayMs * attempt`
(line 211) before the next attempt. -/
def retryLoop (outcomes : Nat → Except UpstreamErr α) (base : Nat) :
    Nat → Nat → RetryTrace α
  | _, 0 => ⟨.error ⟨none⟩, 0, []⟩
  | attempt, fuel + 1 =>
    match outcomes attempt with
    | .ok v => ⟨.ok v, 1, []⟩
    | .error e =>
      if isRetryable e ∧ fuel ≠ 0 then
        let t := retryLoop outcomes base (attempt + 1) fuel
        ⟨t.result, t.attempts + 1, base * attempt :: t.delays⟩
      else ⟨.error e, 1, []⟩

/-- `withRetry(fn, opts)` (dashboard-server.ts lines 201-218).
`tries = Math.max(1, opts?.tries ?? 3)`, `baseDelayMs = Math.max(50,
opts?.baseDelayMs ?? 300)`; `none` models an omitted option. -/
def withRetry (outcomes : Nat → Except UpstreamErr α) (tries base : Option Nat) :
    RetryTrace α :=
  retryLoop outcomes (max 50 (base.getD 300)) 1 (max 1 (tries.getD 3))

/-- A fetch whose every attempt fails with HTTP 429 (rate limited). -/
def alwaysRateLimited : Nat → Except UpstreamErr Nat := fun _ => .error ⟨some 429⟩

theorem retryLoop_spec (o : Nat → Except UpstreamErr α) (b : Nat) :
    ∀ fuel a, 1 ≤ fuel →
      1 ≤ (retryLoop o b a fuel).attempts
      ∧ (retryLoop o b a fuel).attempts ≤ fuel
      ∧ (retryLoop o b a fuel).result = o (a + (retryLoop o b a fuel).attempts - 1)
      ∧ (retryLoop o b a fuel).delays
          = (List.range ((retryLoop o b a fuel).attempts - 1)).map (fun i => b * (a + i))
      ∧ (∀ i, i + 1 < (retryLoop o b a fuel).attempts →
          ∃ e, o (a + i) = .error e ∧ isRetryable e = true) := by
  intro fuel
  induction fuel with
  | zero => intro a h; omega
  | succ fuel ih =>
    intro a _
    cases ho : o a with
    | ok v =>
      simp only [retryLoop, ho]
      refine ⟨le_refl 1, by omega, ?_, rfl, ?_⟩
      · simpa using ho.symm
      · intro i hi; simp at hi
    | error e =>
      simp only [retryLoop, ho]
      by_cases hr : isRetryable e = true ∧ fuel ≠ 0
      · simp only [if_pos hr]
        have hfuel : 1 ≤ fuel := Nat.one_le_iff_ne_zero.mpr hr.2
        obtain ⟨h1, h2, h3, h4, h5⟩ := ih (a + 1) hfuel
        refine ⟨by simp, by simpa using Nat.add_le_add_right h2 1, ?_, ?_, ?_⟩
        · simpa [Nat.add_sub_cancel, show a + 1 + (retryLoop o b (a + 1) fuel).attempts - 1
            = a + ((retryLoop o b (a + 1) fuel).attempts + 1) - 1 by omega] using h3
        · show b * a :: (retryLoop o b (a + 1) fuel).delays
            = (List.range ((retryLoop o b (a + 1) fuel).attempts + 1 - 1)).map
                (fun i => b * (a + i))
          rw [h4, Nat.add_sub_cancel]
          obtain ⟨n, hn⟩ := Nat.exists_eq_add_of_le h1
          rw [show (retryLoop o b (a + 1) fuel).attempts = n + 1 by omega]
          rw [Nat.add_sub_cancel, List.range_succ_eq_map]
          simp only [List.map_cons, List.map_map, Nat.add_zero]
          refine congrArg _ (List.map_congr_left ?_)
          intro i _
          simp only [Function.comp_apply, Nat.succ_eq_add_one]
          ring
        · intro i hi
          match i with
          | 0 => exact ⟨e, by simpa using ho, hr.1⟩
          | j + 1 =>
            obtain ⟨e', he', hre'⟩ := h5 j (by omega)
            exact ⟨e', by simpa [show a + (j + 1) = a + 1 + j by omega] using he', hre'⟩
      · simp only [if_neg hr]
        refine ⟨le_refl 1, by omega, by simpa using ho.symm, rfl, ?_⟩
        intro i hi; simp at hi

/-- If every attempt fails with a retryable error, `retryLoop` uses all of its
fuel and returns the error of the last attempt. -/
theorem retryLoop_all_fail (o : Nat → Except UpstreamErr α) (b : Nat)
    (ef : Nat → UpstreamErr) (ho : ∀ k, o k = .error (ef k))
    (hr : ∀ k, isRetryable (ef k) = true) :
    ∀ fuel a, 1 ≤ fuel →
      (retryLoop o b a fuel).attempts = fuel
      ∧ (retryLoop o b a fuel).result = .error (ef (a + fuel - 1)) := by
  intro fuel
  induction fuel with
  | zero => intro a h; omega
  | succ fuel ih =>
    intro a _
    simp only [retryLoop, ho a]
    by_cases hf : fuel = 0
    · subst hf
      simp only [if_neg (by simp : ¬(isRetryable (ef a) = true ∧ (0 : Nat) ≠ 0))]
      exact ⟨by simp, by simp⟩
    · have hcond : isRetryable (ef a) = true ∧ fuel ≠ 0 := ⟨hr a, hf⟩
      simp only [if_pos hcond]
      obtain ⟨h1, h2⟩ := ih (a + 1) (Nat.one_le_iff_ne_zero.mpr hf)
      exact ⟨by simp [h1], by simp only [h2]; congr 2; omega⟩

/-- C6, as frozen, is false on the code because `withRetry` clamps
`baseDelayMs` to at least 50 (and `tries` to at least 1): with
`baseDelay = 10` and a fetch that always fails with status 429, the delay
slept before attempt 2 is `50`, not `baseDelay * (2 - 1) = 10`. -/
theorem withRetry_claimed_delay_false :
    (withRetry alwaysRateLimited (some 3) (some 10)).delays.head? = some 50
    ∧ ¬(50 = 10 * (2 - 1)) := by decide

/-- C6 (amended): with the clamped values `tries' = max 1 tries` and
`base' = max 50 baseDelay` actually used by the code, `withRetry` makes at
least 1 and at most `tries'` attempts; the result it returns or throws is the
outcome of the last attempt made (in particular, after the last failed attempt
the last error is thrown); the delay slept before attempt `k` (k ≥ 2) is
`base' * (k - 1)` (`delays[j]` is the sleep before attempt `j + 2`); every
attempt other than the last is a failure carrying upstream HTTP status 429,
502, 503 or 504 (so any other error is rethrown immediately, without a further
attempt, as the last conjunct also states directly). -/
theorem withRetry_amended (o : Nat → Except UpstreamErr α) (tries base : Option Nat) :
    1 ≤ (withRetry o tries base).attempts
    ∧ (withRetry o tries base).attempts ≤ max 1 (tries.getD 3)
    ∧ (withRetry o tries base).result = o (withRetry o tries base).attempts
    ∧ (withRetry o tries base).delays
        = (List.range ((withRetry o tries base).attempts - 1)).map
            (fun i => max 50 (base.getD 300) * (1 + i))
    ∧ (∀ i, i + 1 < (withRetry o tries base).attempts →
        ∃ e, o (1 + i) = .error e ∧ isRetryable e = true)
    ∧ (∀ e, o 1 = .error e → isRetryable e = false →
        (withRetry o tries base).attempts = 1
        ∧ (withRetry o tries base).result = .error e) := by
  obtain ⟨h1, h2, h3, h4, h5⟩ :=
    retryLoop_spec o (max 50 (base.getD 300)) (max 1 (tries.getD 3)) 1 (le_max_left _ _)
  rw [show withRetry o tries base
      = retryLoop o (max 50 (base.getD 300)) 1 (max 1 (tries.getD 3)) from rfl]
  refine ⟨h1, h2, by rw [h3]; congr 1; omega, h4, h5, ?_⟩
  intro e he hne
  have hatt : (retryLoop o (max 50 (base.getD 300)) 1 (max 1 (tries.getD 3))).attempts = 1 := by
    by_contra hne1
    obtain ⟨e', he', hre'⟩ := h5 0 (by omega)
    rw [show (1 : Nat) + 0 = 1 from rfl, he] at he'
    cases he'
    rw [hre'] at hne
    simp at hne
  refine ⟨hatt, ?_⟩
  rw [h3, hatt, he]

/-- Witness for `withRetry_amended` at a concrete input: three attempts all
failing with status 429, `tries = 3`, `baseDelay = 10`. -/
theorem withRetry_amended_witness :
    (withRetry alwaysRateLimited (some 3) (some 10)).attempts ≤ max 1 ((some 3).getD 3)
    ∧ (∃ e, alwaysRateLimited (1 + 0) = .error e ∧ isRetryable e = true) :=
  ⟨(withRetry_amended alwaysRateLimited (some 3) (some 10)).2.1,
   (withRetry_amended alwaysRateLimited (some 3) (some 10)).2.2.2.2.1 0 (by decide)⟩

/-! ## TTL cache + in-flight coalescer (`fetchClientMetrics`,
dashboard-server.ts lines 30-40 and 276-478)

`fetchClientMetrics` keeps two process-wide maps:
`cache : Map<string, CacheEntry>` and `inFlight : Map<string, Promise>`.
For one fixed key the relevant state is the optional cache entry and the
optional pending promise with the callers awaiting it.  Node is
single-threaded: the in-flight check (line 294), the synchronous prefix of the
async body up to its first `await` (lines 297-320, which contains the cache
check at lines 308-309) and the registration `inFlight.set` (line 472) all run
without interleaving, so an arrival is one atomic step.  Likewise, when the
fetch settles, the cache write (line 468), the resolution of every waiter's
`await` and the creator's `finally { inFlight.delete }` (line 476) are a
cascade of microtasks that completes before any further request macrotask, so
a settlement is one atomic step.  Values and errors are modelled as `Nat`. -/

/-- State of the TTL cache and in-flight registry for one cache key.
`cache` is `(expiresAt, value)`; `waiters` is `some ws` when an in-flight
promise exists, with `ws` the callers awaiting it (the creator first);
`fetchCount` counts started composite fetches (invocations of the fetch body
that go past the cache check); `removals` counts `inFlight.delete` calls that
removed a handle; `delivered` records, in order, each caller's settled
result. -/
structure CoState where
  cache : Option (Nat × Nat)
  waiters : Option (List Nat)
  fetchCount : Nat
  removals : Nat
  delivered : List (Nat × Except Nat Nat)

/-- Events on one cache key: a caller arrives at time `now`, or the in-flight
fetch settles at time `now` with `outcome`. -/
inductive CoEvent where
  | arrive (caller now : Nat)
  | settle (outcome : Except Nat Nat) (now : Nat)

/-- One atomic step of `fetchClientMetrics` for a fixed key.

`arrive`: line 294-295 — if a promise is in flight the caller awaits it (is
appended to its waiters) and nothing else happens.  Otherwise the async body
starts: lines 308-309 — if a live cache entry exists (`expiresAt > now`,
strict) its value is delivered to the caller at once and no fetch happens
(the body returns before its first `await`, and the already-resolved promise
is set and deleted within the same microtask cascade); otherwise a fresh
composite fetch starts with this caller as the only waiter.

`settle`: the body finishes — on success the value is stored as a new cache
entry `{ value, expiresAt: now + ttl }` (line 468); on failure nothing is
written; either way every waiter receives the outcome and the creator's
`finally` removes the handle (lines 473-477). -/
def coStep (ttl : Nat) (s : CoState) (ev : CoEvent) : CoState :=
  match ev with
  | .arrive c now =>
    match s.waiters with
    | some ws => { s with waiters := some (ws ++ [c]) }
    | none =>
      match s.cache with
      | some (exp, v) =>
        if now < exp then { s with delivered := s.delivered ++ [(c, .ok v)] }
        else { s with waiters := some [c], fetchCount := s.fetchCount + 1 }
      | none => { s with waiters := some [c], fetchCount := s.fetchCount + 1 }
  | .settle outcome now =>
    match s.waiters with
    | some ws =>
      { s with
        cache := match outcome with
          | .ok v => some (now + ttl, v)
          | .error _ => s.cache,
        waiters := none,
        removals := s.removals + 1,
        delivered := s.delivered ++ ws.map (fun c => (c, outcome)) }
    | none => s

/-- Run a sequence of events. -/
def coRun (ttl : Nat) (s : CoState) (evs : List CoEvent) : CoState :=
  evs.foldl (coStep ttl) s

/-- `N` concurrent calls: the arrival events of the callers `cs`, all at time
`now` (all of them run before the fetch settles). -/
def arrivals (now : Nat) (cs : List Nat) : List CoEvent :=
  cs.map (fun c => .arrive c now)

/-- The state of a key never touched before: no cache entry, no in-flight
promise. -/
def coInit : CoState := ⟨none, none, 0, 0, []⟩

theorem coRun_arrivals_joining (ttl now : Nat) (s : CoState) (ws : List Nat)
    (hw : s.waiters = some ws) :
    ∀ cs, coRun ttl s (arrivals now cs)
      = { s with waiters := some (ws ++ cs) } := by
  intro cs
  induction cs generalizing s ws with
  | nil =>
    show s = _
    rw [List.append_nil, ← hw]
  | cons c cs ih =>
    show coRun ttl (coStep ttl s (.arrive c now)) (arrivals now cs) = _
    rw [show coStep ttl s (.arrive c now) = { s with waiters := some (ws ++ [c]) } by
      simp [coStep, hw]]
    rw [ih _ (ws ++ [c]) rfl]
    simp

/-- After the first caller of a cold key arrives, every further concurrent
arrival joins that caller's in-flight fetch: exactly one fetch is started. -/
theorem coRun_arrivals_cold (ttl now : Nat) (s : CoState) (c : Nat) (cs : List Nat)
    (hw : s.waiters = none) (hc : ∀ p ∈ s.cache, p.1 ≤ now) :
    coRun ttl s (arrivals now (c :: cs))
      = { s with waiters := some (c :: cs), fetchCount := s.fetchCount + 1 } := by
  show coRun ttl (coStep ttl s (.arrive c now)) (arrivals now cs) = _
  have hstep : coStep ttl s (.arrive c now)
      = { s with waiters := some [c], fetchCount := s.fetchCount + 1 } := by
    cases hcache : s.cache with
    | none => simp [coStep, hw, hcache]
    | some p =>
      obtain ⟨exp, v⟩ := p
      have : exp ≤ now := by simpa using hc (exp, v) (by simp [hcache])
      simp [coStep, hw, hcache, Nat.not_lt.mpr this]
  rw [hstep, coRun_arrivals_joining ttl now _ [c] rfl]
  simp

theorem coRun_append (ttl : Nat) (s : CoState) (evs1 evs2 : List CoEvent) :
    coRun ttl s (evs1 ++ evs2) = coRun ttl (coRun ttl s evs1) evs2 :=
  List.foldl_append _ _ _ _

/-- C1: with no live cache entry for the key (every stored entry, if any, is
already expired at `now`), `N = 1 + cs.length` concurrent calls to
`fetchClientMetrics` with the same key start exactly one invocation of the
composite fetch body, and when it settles every one of the `N` callers
receives the identical result `v`. -/
theorem fetch_coalescing (cache0 : Option (Nat × Nat)) (ttl now t v : Nat)
    (c : Nat) (cs : List Nat) (hc : ∀ p ∈ cache0, p.1 ≤ now) :
    (coRun ttl ⟨cache0, none, 0, 0, []⟩
        (arrivals now (c :: cs) ++ [.settle (.ok v) t])).fetchCount = 1
    ∧ (coRun ttl ⟨cache0, none, 0, 0, []⟩
        (arrivals now (c :: cs) ++ [.settle (.ok v) t])).delivered
      = (c :: cs).map (fun x => (x, Except.ok v)) := by
  rw [coRun_append,
    coRun_arrivals_cold ttl now ⟨cache0, none, 0, 0, []⟩ c cs rfl hc]
  exact ⟨rfl, rfl⟩

/-- Witness for `fetch_coalescing`: three concurrent callers on a cold key. -/
theorem fetch_coalescing_witness :
    (coRun 60000 ⟨none, none, 0, 0, []⟩
        (arrivals 5 [1, 2, 3] ++ [.settle (.ok 42) 10])).fetchCount = 1
    ∧ (coRun 60000 ⟨none, none, 0, 0, []⟩
        (arrivals 5 [1, 2, 3] ++ [.settle (.ok 42) 10])).delivered
      = [(1, Except.ok 42), (2, Except.ok 42), (3, Except.ok 42)] := by
  have h := fetch_coalescing none 60000 5 10 42 1 [2, 3] (by simp)
  simpa using h

/-- C5: if the composite fetch body for a key throws, no cache entry is
written (the cache is left exactly as it was), the same error is delivered to
every caller awaiting the in-flight handle, the handle is removed from the
registry exactly once when the fetch settles, and a caller arriving after the
settlement starts a fresh fetch attempt. -/
theorem fetch_failure_no_cache (cache0 : Option (Nat × Nat))
    (ttl now t err c next now2 : Nat) (cs : List Nat)
    (hc : ∀ p ∈ cache0, p.1 ≤ now) (hc2 : ∀ p ∈ cache0, p.1 ≤ now2) :
    (coRun ttl ⟨cache0, none, 0, 0, []⟩
        (arrivals now (c :: cs) ++ [.settle (.error err) t])).cache = cache0
    ∧ (coRun ttl ⟨cache0, none, 0, 0, []⟩
        (arrivals now (c :: cs) ++ [.settle (.error err) t])).delivered
      = (c :: cs).map (fun x => (x, Except.error err))
    ∧ (coRun ttl ⟨cache0, none, 0, 0, []⟩
        (arrivals now (c :: cs) ++ [.settle (.error err) t])).removals = 1
    ∧ (coRun ttl ⟨cache0, none, 0, 0, []⟩
        (arrivals now (c :: cs) ++ [.settle (.error err) t])).waiters = none
    ∧ (coStep ttl
        (coRun ttl ⟨cache0, none, 0, 0, []⟩
          (arrivals now (c :: cs) ++ [.settle (.error err) t]))
        (.arrive next now2)).fetchCount
      = (coRun ttl ⟨cache0, none, 0, 0, []⟩
          (arrivals now (c :: cs) ++ [.settle (.error err) t])).fetchCount + 1 := by
  rw [coRun_append,
    coRun_arrivals_cold ttl now ⟨cache0, none, 0, 0, []⟩ c cs rfl hc]
  have hsf : coRun ttl ⟨cache0, some (c :: cs), 1, 0, []⟩ [.settle (.error err) t]
      = ⟨cache0, none, 1, 1, (c :: cs).map (fun x => (x, Except.error err))⟩ := by
    simp [coRun, coStep]
  rw [hsf]
  refine ⟨rfl, rfl, rfl, rfl, ?_⟩
  cases hcache : cache0 with
  | none => simp [coStep, hcache]
  | some p =>
    obtain ⟨exp, v⟩ := p
    have : exp ≤ now2 := by simpa using hc2 (exp, v) (by simp [hcache])
    simp [coStep, hcache, Nat.not_lt.mpr this]

/-- Witness for `fetch_failure_no_cache`: two concurrent callers on a cold
key whose fetch fails, then a later third caller. -/
theorem fetch_failure_no_cache_witness :
    (coRun 60000 ⟨none, none, 0, 0, []⟩
        (arrivals 5 [1, 2] ++ [.settle (.error 7) 10])).cache = none
    ∧ (coRun 60000 ⟨none, none, 0, 0, []⟩
        (arrivals 5 [1, 2] ++ [.settle (.error 7) 10])).delivered
      = [(1, Except.error 7), (2, Except.error 7)]
    ∧ (coRun 60000 ⟨none, none, 0, 0, []⟩
        (arrivals 5 [1, 2] ++ [.settle (.error 7) 10])).removals = 1
    ∧ (coRun 60000 ⟨none, none, 0, 0, []⟩
        (arrivals 5 [1, 2] ++ [.settle (.error 7) 10])).waiters = none
    ∧ (coStep 60000
        (coRun 60000 ⟨none, none, 0, 0, []⟩
          (arrivals 5 [1, 2] ++ [.settle (.error 7) 10]))
        (.arrive 3 11)).fetchCount
      = (coRun 60000 ⟨none, none, 0, 0, []⟩
          (arrivals 5 [1, 2] ++ [.settle (.error 7) 10])).fetchCount + 1 := by
  have h := fetch_failure_no_cache none 60000 5 10 7 1 3 11 [2] (by simp) (by simp)
  simpa using h

/-- C8: a successful settle at time `t` stores the fetched value with
`expiresAt = t + ttl`; a later lone call at `now < expiresAt` is served that
exact stored value with no new fetch; a lone call at `now ≥ expiresAt` is not
served from the cache and starts exactly one new fetch (the strict comparison
`cached.expiresAt > Date.now()` of line 309). -/
theorem cache_ttl_expiry (ttl t v exp c now : Nat) (s s' : CoState)
    (ws : List Nat) (hw : s.waiters = some ws)
    (hw' : s'.waiters = none) (hcache' : s'.cache = some (exp, v)) :
    (coStep ttl s (.settle (.ok v) t)).cache = some (t + ttl, v)
    ∧ (now < exp →
        (coStep ttl s' (.arrive c now)).delivered = s'.delivered ++ [(c, .ok v)]
        ∧ (coStep ttl s' (.arrive c now)).fetchCount = s'.fetchCount)
    ∧ (exp ≤ now →
        (coStep ttl s' (.arrive c now)).fetchCount = s'.fetchCount + 1
        ∧ (coStep ttl s' (.arrive c now)).delivered = s'.delivered) := by
  refine ⟨by simp [coStep, hw], ?_, ?_⟩
  · intro hlt
    constructor <;> simp [coStep, hw', hcache', hlt]
  · intro hge
    constructor <;> simp [coStep, hw', hcache', Nat.not_lt.mpr hge]

/-- Witness for `cache_ttl_expiry`: an entry stored at `t = 10` with
`ttl = 60000`, read back at `now = 100 < 60010` and at `now = 60010`. -/
theorem cache_ttl_expiry_witness :
    (coStep 60000 ⟨none, some [1], 1, 0, []⟩ (.settle (.ok 42) 10)).cache
      = some (60010, 42)
    ∧ ((coStep 60000 ⟨some (60010, 42), none, 1, 1, []⟩ (.arrive 2 100)).delivered
        = [] ++ [(2, Except.ok 42)]
      ∧ (coStep 60000 ⟨some (60010, 42), none, 1, 1, []⟩ (.arrive 2 100)).fetchCount = 1)
    ∧ ((coStep 60000 ⟨some (60010, 42), none, 1, 1, []⟩ (.arrive 2 60010)).fetchCount = 1 + 1
      ∧ (coStep 60000 ⟨some (60010, 42), none, 1, 1, []⟩ (.arrive 2 60010)).delivered = []) := by
  have h1 := cache_ttl_expiry 60000 10 42 60010 2 100
    ⟨none, some [1], 1, 0, []⟩ ⟨some (60010, 42), none, 1, 1, []⟩ [1] rfl rfl rfl
  have h2 := cache_ttl_expiry 60000 10 42 60010 2 60010
    ⟨none, some [1], 1, 0, []⟩ ⟨some (60010, 42), none, 1, 1, []⟩ [1] rfl rfl rfl
  exact ⟨h1.1, h1.2.1 (by decide), h2.2.2 (by decide)⟩

/-! ## Error propagation through the composite fetch (C9)

Inside the `fetchClientMetrics` body each platform section is wrapped in its
own `try { ... } catch (e) { console.error(...) }` (Instantly lines 323-374,
EmailBison lines 376-392, HeyReach lines 393-465, which contains the
`withRetry`-wrapped `getCampaigns` call at line 405).  A platform failure —
including a transient error that exhausted its retries — is therefore logged
and swallowed: the body always reaches line 467-469, builds a value from the
platform sections that succeeded and caches it. -/

/-- One platform section of the body: its metrics on success, nothing on a
caught (logged, swallowed) failure. -/
def platformMetrics (r : Except UpstreamErr (List Nat)) : List Nat :=
  match r with
  | .ok ms => ms
  | .error _ => []

/-- The metrics list built by the `fetchClientMetrics` body from the three
platform sections' outcomes (`metrics.push(...)` in source order). -/
def fetchClientMetricsBody (instantlyR emailbisonR heyreachR :
    Except UpstreamErr (List Nat)) : List Nat :=
  platformMetrics instantlyR ++ platformMetrics emailbisonR ++ platformMetrics heyreachR

/-- A HeyReach `getCampaigns` call that is rate-limited on every attempt. -/
def heyreachAlways429 : Nat → Except UpstreamErr (List Nat) :=
  fun _ => .error ⟨some 429⟩

/-- C9, as frozen, is false on the code: when the HeyReach `getCampaigns`
call fails with HTTP 429 through all 3 retry attempts (line 405), `withRetry`
does rethrow the last error, but `fetchClientMetrics` catches it in the
HeyReach section's `catch`; the composite fetch body still completes with the
other platforms' metrics instead of failing, and that degraded value IS
written to the TTL cache. -/
theorem transient_failure_not_surfaced :
    (withRetry heyreachAlways429 (some 3) (some 500)).result = .error ⟨some 429⟩
    ∧ fetchClientMetricsBody (.ok [1]) (.ok [2])
        (withRetry heyreachAlways429 (some 3) (some 500)).result = [1, 2]
    ∧ (coStep 60000 ⟨none, some [9], 1, 0, []⟩ (.settle (.ok 5) 10)).cache
      = some (60010, 5) := by
  refine ⟨by decide, by decide, rfl⟩

/-- C9 (amended): when an upstream call classified as transient fails through
all `max 1 tries` bounded retry attempts, `withRetry` rethrows the last
attempt's error to its caller; `fetchClientMetrics` catches that error in the
failing platform's own `try`/`catch`, so the composite fetch completes with
that platform's metrics omitted (it does not surface as a failed fetch to the
caller of `fetchClientMetrics`), and the degraded result is written to the
TTL cache; the TTL cache stores no entry only when the composite body itself
throws (a settlement with an error writes nothing). -/
theorem transient_failure_amended (ef : Nat → UpstreamErr)
    (hr : ∀ k, isRetryable (ef k) = true) (tries base : Option Nat)
    (instantlyR emailbisonR : Except UpstreamErr (List Nat))
    (ttl t v err : Nat) (s : CoState) (ws : List Nat) (hw : s.waiters = some ws) :
    (withRetry (fun k => (.error (ef k) : Except UpstreamErr (List Nat)))
        tries base).result = .error (ef (max 1 (tries.getD 3)))
    ∧ fetchClientMetricsBody instantlyR emailbisonR
        (.error (ef (max 1 (tries.getD 3))))
      = platformMetrics instantlyR ++ platformMetrics emailbisonR
    ∧ (coStep ttl s (.settle (.ok v) t)).cache = some (t + ttl, v)
    ∧ (coStep ttl s (.settle (.error err) t)).cache = s.cache := by
  refine ⟨?_, ?_, by simp [coStep, hw], by simp [coStep, hw]⟩
  · have h := retryLoop_all_fail (fun k => (.error (ef k) : Except UpstreamErr (List Nat)))
      (max 50 (base.getD 300)) ef (fun _ => rfl) hr (max 1 (tries.getD 3)) 1
      (le_max_left _ _)
    rw [show withRetry (fun k => (.error (ef k) : Except UpstreamErr (List Nat))) tries base
        = retryLoop (fun k => .error (ef k)) (max 50 (base.getD 300)) 1
            (max 1 (tries.getD 3)) from rfl, h.2]
    rw [show 1 + max 1 (tries.getD 3) - 1 = max 1 (tries.getD 3) by omega]
  · simp [fetchClientMetricsBody, platformMetrics]

/-- Witness for `transient_failure_amended`: every attempt limited with 429,
default options, a pending fetch with one waiter. -/
theorem transient_failure_amended_witness :
    (withRetry (fun _ => (.error (⟨some 429⟩ : UpstreamErr) :
        Except UpstreamErr (List Nat))) none none).result
      = .error ⟨some 429⟩
    ∧ fetchClientMetricsBody (.ok [1]) (.ok [2]) (.error ⟨some 429⟩) = [1] ++ [2]
    ∧ (coStep 60000 ⟨none, some [1], 1, 0, []⟩ (.settle (.ok 5) 10)).cache
      = some (10 + 60000, 5)
    ∧ (coStep 60000 ⟨none, some [1], 1, 0, []⟩ (.settle (.error 7) 10)).cache = none := by
  have h := transient_failure_amended (fun _ => (⟨some 429⟩ : UpstreamErr)) (fun _ => rfl)
    none none (.ok [1]) (.ok [2]) 60000 10 5 7 ⟨none, some [1], 1, 0, []⟩ [1] rfl
  simpa using h

/-! ## HeyReach per-campaign stats warmer
(`refreshHeyReachPerCampaignStats`, dashboard-server.ts lines 42-54 and
70-198; trigger in the `/api/campaigns` handler, lines 854-873)

`statsByCampaignId` is a plain JS object keyed by `String(campaignId)`.  A JS
object distinguishes an absent key from a key present with value `undefined`
(`out[k] = undefined` creates the key, and a later spread `{...old, ...out}`
lets that `undefined` override `old[k]`).  We model such an object as
`Nat → Option (Option Nat)`: outer `none` = key absent, `some none` = key
present with value `undefined`, `some (some v)` = key present with stats
value `v`.  Campaign ids are `Nat` (the source keys by `String(id)`, an
injective image of the id).  Per-campaign stats payloads are modelled as
`Nat`. -/

/-- A JS object mapping campaign-id keys to an optional stats value. -/
def JsRec : Type := Nat → Option (Option Nat)

/-- The empty object `{}`. -/
def JsRec.empty : JsRec := fun _ => none

/-- Property assignment `m[k] = v` (creates the key even when `v` is
`undefined`). -/
def JsRec.set (m : JsRec) (k : Nat) (v : Option Nat) : JsRec :=
  fun q => if q = k then some v else m q

/-- Property read `m[k]`: the stored value, or `undefined` when the key is
absent. -/
def JsRec.read (m : JsRec) (k : Nat) : Option Nat :=
  (m k).getD none

/-- Object spread `{...old, ...new}`: a key present in `new` (even with value
`undefined`) overrides `old`. -/
def JsRec.spread (old new : JsRec) : JsRec :=
  fun k => match new k with
  | some v => some v
  | none => old k

/-- `HeyReachService.getOverallStatsByCampaignPublic` called with
`campaignIds: [id]` (heyreach.service.ts lines 319-375): on upstream success
the returned object maps `id` to the adapted stats; on upstream failure the
service catches the error itself ("Don't fail whole batch; just omit this
campaign", line 367) and returns an object WITHOUT the key — it does not
reject. -/
def getOverallStatsByCampaignPublicOne (upstream : Nat → Except Unit Nat)
    (id : Nat) : JsRec :=
  match upstream id with
  | .ok v => JsRec.empty.set id (some v)
  | .error _ => JsRec.empty

/-- The throttled fallback worker loop of `refreshHeyReachPerCampaignStats`
(dashboard-server.ts lines 149-178): for each selected campaign id it calls
the public per-campaign stats endpoint and runs `out[String(id)] =
per[String(id)]`.  The workers of the pool each claim distinct indices of
`ids`, so every id is processed exactly once and the resulting object does
not depend on the interleaving; we fold over `ids` in order.  The worker's
own `catch` is unreachable for upstream failures because the service already
caught them (see `getOverallStatsByCampaignPublicOne`), so the assignment
always runs — with `per[String(id)]` `undefined` when the upstream call for
`id` failed. -/
def statsWorkerOut (upstream : Nat → Except Unit Nat) (ids : List Nat) : JsRec :=
  ids.foldl
    (fun out id =>
      out.set id ((getOverallStatsByCampaignPublicOne upstream id).read id))
    JsRec.empty

/-- Lifecycle state of a `HeyreachStatsCacheEntry` (`status` field,
dashboard-server.ts lines 44-49). -/
inductive StatsStatus where
  | idle
  | refreshing
  | error
deriving DecidableEq

/-- `HeyreachStatsCacheEntry` (dashboard-server.ts lines 44-49), without the
`error` message string. -/
structure HeyreachStatsEntry where
  updatedAt : Nat
  statsByCampaignId : JsRec
  status : StatsStatus

/-- The staleness test of the `/api/campaigns` handler (line 858):
`!entry?.updatedAt || Date.now() - entry.updatedAt > heyreachStatsTtlMs`;
the refresh is invoked only when it holds (line 859-872). -/
def handlerTriggersStatsRefresh (entry : Option HeyreachStatsEntry)
    (now ttl : Nat) : Bool :=
  match entry with
  | none => true
  | some e => decide (e.updatedAt = 0) || decide (ttl < now - e.updatedAt)

/-- The debounce guard at the top of `refreshHeyReachPerCampaignStats`
(lines 81-85): return early when already `refreshing`, or when
`existing?.updatedAt` is truthy and `Date.now() - existing.updatedAt <
heyreachStatsMinIntervalMs`. -/
def refreshGuardProceeds (existing : Option HeyreachStatsEntry)
    (now minInterval : Nat) : Bool :=
  match existing with
  | none => true
  | some e =>
    if e.status = .refreshing then false
    else if e.updatedAt ≠ 0 ∧ now - e.updatedAt < minInterval then false
    else true

/-- A stats refresh for a key actually runs at time `now` exactly when the
handler's staleness test triggers it and the refresh body's debounce guard
lets it proceed (both checks are synchronous, hence atomic). -/
def statsRefreshRuns (entry : Option HeyreachStatsEntry) (now ttl minInterval : Nat) :
    Bool :=
  handlerTriggersStatsRefresh entry now ttl && refreshGuardProceeds entry now minInterval

/-- The entry written when a refresh starts (lines 87-91): `updatedAt` and
values preserved (`?? 0` / `?? {}`), `status: 'refreshing'`. -/
def startStatsRefresh (existing : Option HeyreachStatsEntry) : HeyreachStatsEntry :=
  { updatedAt := (existing.map (·.updatedAt)).getD 0,
    statsByCampaignId := (existing.map (·.statsByCampaignId)).getD JsRec.empty,
    status := .refreshing }

/-- The entry written when a refresh body completes without throwing
(lines 180-190): `updatedAt := Date.now()` at completion, values
`{...existing.statsByCampaignId, ...statsByCampaignId}` where the fresh
values come from the fallback worker loop, `status: 'idle'`. -/
def statsRefreshSuccess (existing : Option HeyreachStatsEntry)
    (upstream : Nat → Except Unit Nat) (ids : List Nat) (completedAt : Nat) :
    HeyreachStatsEntry :=
  { updatedAt := completedAt,
    statsByCampaignId :=
      JsRec.spread ((existing.map (·.statsByCampaignId)).getD JsRec.empty)
        (statsWorkerOut upstream ids),
    status := .idle }

/-- The entry written when the refresh body throws (lines 191-198):
`updatedAt` and values restored from `existing` (`?? 0` / `?? {}`),
`status: 'error'`. -/
def statsRefreshFailure (existing : Option HeyreachStatsEntry) : HeyreachStatsEntry :=
  { updatedAt := (existing.map (·.updatedAt)).getD 0,
    statsByCampaignId := (existing.map (·.statsByCampaignId)).getD JsRec.empty,
    status := .error }

/-- A stats cache with values `{1: 10, 2: 20}` (the claim's `{A: 10, B: 20}`),
last updated successfully at time 50. -/
def statsExistingAB : HeyreachStatsEntry :=
  { updatedAt := 50,
    statsByCampaignId := fun k =>
      if k = 1 then some (some 10) else if k = 2 then some (some 20) else none,
    status := .idle }

/-- An upstream where the per-campaign stats fetch succeeds for campaign 1
with value 15 and fails for campaign 2. -/
def statsUpstreamAokBfail : Nat → Except Unit Nat :=
  fun k => if k = 1 then .ok 15 else .error ()

/-- C2: the claim (and the code's own comments, "swallow; keep
last-known-good" at line 170 and "Only overwrite cache if we got at least
something" at line 180) say a refresh that succeeds for campaign 1 (new value
15) and fails for campaign 2 must leave the cache at `{1: 15, 2: 20}`.  The
code instead leaves `{1: 15, 2: undefined}`: because
`getOverallStatsByCampaignPublic` reports a failed campaign by OMITTING its
key rather than rejecting, the worker's `out[String(id)] = per[String(id)]`
(line 168) assigns `undefined` under key 2, and the spread
`{...existing, ...out}` (lines 181-184) then overrides the previously stored
20 with `undefined` — the previously good value is deleted. -/
theorem stats_partial_refresh_deletes_value :
    (statsRefreshSuccess (some statsExistingAB) statsUpstreamAokBfail
        [1, 2] 100).statsByCampaignId 1 = some (some 15)
    ∧ (statsRefreshSuccess (some statsExistingAB) statsUpstreamAokBfail
        [1, 2] 100).statsByCampaignId 2 = some none
    ∧ statsExistingAB.statsByCampaignId 2 = some (some 20) := by
  refine ⟨rfl, rfl, rfl⟩

/-- C7, as frozen, is false on the code: two refresh triggers for the same
key 1 ms apart can both run a refresh.  A first trigger on a cold key runs a
refresh; if that refresh fails quickly, the entry it leaves keeps
`updatedAt = 0` (a failed refresh never advances `updatedAt`), so a second
trigger issued well within the minimum refresh interval passes both the
handler's staleness test and the body's debounce guard and runs a second
refresh. -/
theorem stats_debounce_claim_false :
    statsRefreshRuns none 1000 60000 15000 = true
    ∧ statsRefreshRuns (some (statsRefreshFailure none)) 1001 60000 15000 = true
    ∧ 1001 - 1000 < 15000 := by
  refine ⟨rfl, rfl, by decide⟩

/-- C7 (amended): a stats refresh for a key runs only if no refresh for that
key is currently `refreshing` AND (the entry has never recorded a successful
update (`updatedAt = 0`), OR (`now - updatedAt` strictly exceeds the
staleness threshold AND `now - updatedAt` is at least — not strictly above —
the minimum refresh interval)).  Consequently two refresh triggers issued
within the minimum refresh interval of each other run at most one refresh
PROVIDED the first-triggered refresh is still in flight or has completed
successfully (at a positive wall-clock time): a trigger that arrives while
the first refresh is `refreshing` does not run, and one that arrives within
the interval after a successful completion does not run.  (A failed first
refresh does not advance `updatedAt` and therefore does not debounce the
second trigger — the counterexample above.) -/
theorem stats_refresh_guard_amended (e : HeyreachStatsEntry)
    (existing : Option HeyreachStatsEntry)
    (now ttl minInterval t tc tnext : Nat) :
    (statsRefreshRuns (some e) now ttl minInterval = true →
      e.status ≠ .refreshing
      ∧ (e.updatedAt = 0
         ∨ (ttl < now - e.updatedAt ∧ minInterval ≤ now - e.updatedAt)))
    ∧ (t ≤ tc → tc ≠ 0 → tnext - t < minInterval →
        ∀ (upstream : Nat → Except Unit Nat) (ids : List Nat),
          statsRefreshRuns (some (statsRefreshSuccess existing upstream ids tc))
            tnext ttl minInterval = false)
    ∧ statsRefreshRuns (some (startStatsRefresh existing)) tnext ttl minInterval
      = false := by
  refine ⟨?_, ?_, ?_⟩
  · intro hrun
    rw [statsRefreshRuns, Bool.and_eq_true] at hrun
    obtain ⟨htrig, hguard⟩ := hrun
    rw [handlerTriggersStatsRefresh] at htrig
    rw [refreshGuardProceeds] at hguard
    by_cases hst : e.status = StatsStatus.refreshing
    · rw [if_pos hst] at hguard
      exact absurd hguard (by simp)
    · rw [if_neg hst] at hguard
      refine ⟨hst, ?_⟩
      by_cases h0 : e.updatedAt = 0
      · exact Or.inl h0
      · refine Or.inr ⟨?_, ?_⟩
        · simpa [h0] using htrig
        · by_cases hmin : e.updatedAt ≠ 0 ∧ now - e.updatedAt < minInterval
          · rw [if_pos hmin] at hguard
            exact absurd hguard (by simp)
          · push_neg at hmin
            exact hmin h0
  · intro hle hpos hwin upstream ids
    have hupd : (statsRefreshSuccess existing upstream ids tc).updatedAt = tc := rfl
    have hst : (statsRefreshSuccess existing upstream ids tc).status = StatsStatus.idle := rfl
    have hlt : tnext - tc < minInterval :=
      lt_of_le_of_lt (Nat.sub_le_sub_left hle tnext) hwin
    have hguardF : refreshGuardProceeds
        (some (statsRefreshSuccess existing upstream ids tc)) tnext minInterval = false := by
      rw [refreshGuardProceeds]
      rw [if_neg (by rw [hst]; intro h; cases h)]
      rw [if_pos (by rw [hupd]; exact ⟨hpos, hlt⟩)]
    rw [statsRefreshRuns, hguardF, Bool.and_false]
  · rw [statsRefreshRuns, refreshGuardProceeds]
    have hst : (startStatsRefresh existing).status = StatsStatus.refreshing := rfl
    rw [if_pos hst, Bool.and_false]

/-- Witness for `stats_refresh_guard_amended` at concrete inputs: a
never-updated idle entry triggered at 70000; a successful first refresh at
`tc = 150` debouncing a second trigger at 200; an in-flight refresh. -/
theorem stats_refresh_guard_amended_witness :
    ((⟨0, JsRec.empty, .idle⟩ : HeyreachStatsEntry).status ≠ .refreshing
      ∧ ((⟨0, JsRec.empty, .idle⟩ : HeyreachStatsEntry).updatedAt = 0
         ∨ (60000 < 70000 - (⟨0, JsRec.empty, .idle⟩ : HeyreachStatsEntry).updatedAt
            ∧ 15000 ≤ 70000 - (⟨0, JsRec.empty, .idle⟩ : HeyreachStatsEntry).updatedAt)))
    ∧ statsRefreshRuns
        (some (statsRefreshSuccess none (fun _ => Except.error ()) [] 150))
        200 60000 15000 = false
    ∧ statsRefreshRuns (some (startStatsRefresh none)) 200 60000 15000 = false := by
  have h := stats_refresh_guard_amended ⟨0, JsRec.empty, .idle⟩ none
    70000 60000 15000 100 150 200
  exact ⟨h.1 (by decide), h.2.1 (by decide) (by decide) (by decide) _ _, h.2.2⟩

/-! ## Filtered replies stream page cache
(`getFilteredRepliesStreamPage`, slack.service.ts lines 304-313 and 680-890)

A raw reply row is modelled by its parsed date `dateMs` (the result of
`parseReplyDateMs`, lines 674-678: `0` when the date is missing or
unparsable) plus an opaque payload; the caller-supplied `include` predicate
(`keep` below) is abstract.  The upstream `GET /api/replies?page=n` response
is modelled as a function from the raw page index to its rows. -/

/-- A raw reply row: `dateMs` is `parseReplyDateMs(r)`, `payload` stands for
the remaining fields the `include` predicate may inspect. -/
structure ReplyRow where
  dateMs : Nat
  payload : Nat
deriving DecidableEq

/-- `RepliesCacheEntry` (slack.service.ts lines 304-310). -/
structure RepliesCacheEntry where
  expiresAt : Nat
  rows : List ReplyRow
  exhausted : Bool
  nextRawPage : Nat
  scannedPages : Nat
deriving DecidableEq

/-- `getRepliesCacheTtlMs` (lines 696-699):
`Math.max(5, Math.min(600, EMAILBISON_REPLIES_CACHE_SECONDS ?? 60)) * 1000`;
`none` models an unset or non-finite environment value. -/
def getRepliesCacheTtlMs (env : Option Nat) : Nat :=
  max 5 (min 600 (env.getD 60)) * 1000

/-- `getRepliesMaxRawPages` (lines 701-705):
`Math.max(1, Math.min(5000, EMAILBISON_REPLIES_MAX_RAW_PAGES ?? 2000))`. -/
def getRepliesMaxRawPages (env : Option Nat) : Nat :=
  max 1 (min 5000 (env.getD 2000))

/-- The per-row filter of the scan loop (lines 868-874): skip when the row is
dated (`ms` truthy) after the window end, skip when dated before the window
start, skip when the `include` predicate rejects it; keep otherwise. -/
def rowPasses (startMs endMs : Option Nat) (keep : ReplyRow → Bool)
    (r : ReplyRow) : Bool :=
  if (match endMs with
      | some e => decide (r.dateMs ≠ 0) && decide (e < r.dateMs)
      | none => false) then false
  else if (match startMs with
      | some s => decide (r.dateMs ≠ 0) && decide (r.dateMs < s)
      | none => false) then false
  else keep r

/-- The early-stop test of the scan loop (lines 876-884): the window start is
set, and the last row of the raw page has a parsable date strictly before it
(the feed is newest-first, so the scan has crossed the start boundary). -/
def crossedStartBoundary (startMs : Option Nat) (raw : List ReplyRow) : Bool :=
  match startMs, raw.getLast? with
  | some s, some lastRow => decide (lastRow.dateMs ≠ 0) && decide (lastRow.dateMs < s)
  | _, _ => false

/-- The `while` loop of `getFilteredRepliesStreamPage` (lines 857-885): while
fewer filtered rows are buffered than `needed` and the entry is neither
exhausted nor at the raw-page scan cap, fetch raw page `entry.nextRawPage`,
advance `nextRawPage` and `scannedPages`, mark exhausted on an empty page,
append the rows that pass the filter, and mark exhausted when the scan
crossed the window start.  Besides the updated entry it returns the list of
raw page indices fetched, in order (the instrumentation of upstream calls the
spec's testable properties ask about). -/
def scanGo (fetchRaw : Nat → List ReplyRow) (keep : ReplyRow → Bool)
    (startMs endMs : Option Nat) (needed maxRawPages : Nat) :
    Nat → RepliesCacheEntry → RepliesCacheEntry × List Nat
  | 0, e => (e, [])
  | fuel + 1, e =>
    if e.rows.length < needed ∧ e.exhausted = false ∧ e.scannedPages < maxRawPages then
      let raw := fetchRaw e.nextRawPage
      let e1 : RepliesCacheEntry :=
        { e with nextRawPage := e.nextRawPage + 1, scannedPages := e.scannedPages + 1 }
      if raw.isEmpty then ({ e1 with exhausted := true }, [e.nextRawPage])
      else
        let e2 : RepliesCacheEntry :=
          { e1 with rows := e1.rows ++ raw.filter (rowPasses startMs endMs keep) }
        if crossedStartBoundary startMs raw then ({ e2 with exhausted := true }, [e.nextRawPage])
        else
          let res := scanGo fetchRaw keep startMs endMs needed maxRawPages fuel e2
          (res.1, e.nextRawPage :: res.2)
    else (e, [])

/-- The whole loop: each iteration increments `scannedPages` and the guard
requires `scannedPages < maxRawPages`, so `maxRawPages - e.scannedPages` is
exactly the number of iterations the loop can still make; running `scanGo`
with that iteration budget is the untruncated loop (with a smaller budget the
`fuel = 0` clause would be reachable, with this one it coincides with the
guard's cap test). -/
def scanRawPages (fetchRaw : Nat → List ReplyRow) (keep : ReplyRow → Bool)
    (startMs endMs : Option Nat) (needed maxRawPages : Nat)
    (e : RepliesCacheEntry) : RepliesCacheEntry × List Nat :=
  scanGo fetchRaw keep startMs endMs needed maxRawPages
    (maxRawPages - e.scannedPages) e

/-- The fresh entry built when the key has no entry or the entry has expired
(lines 842-851). -/
def freshRepliesEntry (now ttlMs : Nat) : RepliesCacheEntry :=
  { expiresAt := now + ttlMs, rows := [], exhausted := false,
    nextRawPage := 1, scannedPages := 0 }

/-- What one `getFilteredRepliesStreamPage` call produces: the entry left in
`repliesCache`, the returned page slice, the returned `hasMore`, and the raw
page indices fetched during the call. -/
structure StreamPageResult where
  entry : RepliesCacheEntry
  pageRows : List ReplyRow
  hasMore : Bool
  fetchedPages : List Nat
deriving DecidableEq

/-- The entry-selection step of `getFilteredRepliesStreamPage` (lines
841-851): use the cached entry unless it is absent or expired
(`entry.expiresAt <= now`), in which case a fresh empty entry is stored. -/
def selectEntry (cached : Option RepliesCacheEntry) (now ttlMs : Nat) :
    RepliesCacheEntry :=
  match cached with
  | some e => if e.expiresAt ≤ now then freshRepliesEntry now ttlMs else e
  | none => freshRepliesEntry now ttlMs

/-- The serving step of `getFilteredRepliesStreamPage` (lines 853-889), after
the entry has been selected and `page`/`perPage` clamped: run the scan loop
until `needed = offset + perPage` filtered rows are buffered, then return
`rows.slice(offset, offset + perPage)` and `hasMore` (line 888). -/
def servePage (fetchRaw : Nat → List ReplyRow) (keep : ReplyRow → Bool)
    (startMs endMs : Option Nat) (maxRawPages : Nat)
    (entry : RepliesCacheEntry) (page perPage : Nat) : StreamPageResult :=
  let offset := (page - 1) * perPage
  let needed := offset + perPage
  let scanned := scanRawPages fetchRaw keep startMs endMs needed maxRawPages entry
  { entry := scanned.1,
    pageRows := (scanned.1.rows.drop offset).take perPage,
    hasMore :=
      if offset + perPage < scanned.1.rows.length then true
      else !scanned.1.exhausted && decide (scanned.1.scannedPages < maxRawPages),
    fetchedPages := scanned.2 }

/-- `getFilteredRepliesStreamPage` (lines 814-890) for one key: clamp `page`
to [1, 1000] and `perPage` to [1, 200] (lines 824-825), select or rebuild the
entry, and serve the requested page from the (possibly further scanned)
filtered row buffer. -/
def getFilteredRepliesStreamPage (fetchRaw : Nat → List ReplyRow)
    (keep : ReplyRow → Bool) (startMs endMs : Option Nat)
    (ttlMs maxRawPages now : Nat) (cached : Option RepliesCacheEntry)
    (pageReq perPageReq : Nat) : StreamPageResult :=
  servePage fetchRaw keep startMs endMs maxRawPages
    (selectEntry cached now ttlMs)
    (max 1 (min 1000 pageReq)) (max 1 (min 200 perPageReq))

theorem scanGo_spec (fetchRaw : Nat → List ReplyRow) (keep : ReplyRow → Bool)
    (startMs endMs : Option Nat) (needed maxRawPages : Nat) :
    ∀ fuel (e : RepliesCacheEntry), maxRawPages - e.scannedPages ≤ fuel →
      ∃ k tail,
        (scanGo fetchRaw keep startMs endMs needed maxRawPages fuel e).1.scannedPages
          = e.scannedPages + k
        ∧ (scanGo fetchRaw keep startMs endMs needed maxRawPages fuel e).1.nextRawPage
          = e.nextRawPage + k
        ∧ (scanGo fetchRaw keep startMs endMs needed maxRawPages fuel e).1.expiresAt
          = e.expiresAt
        ∧ (scanGo fetchRaw keep startMs endMs needed maxRawPages fuel e).1.rows
          = e.rows ++ tail
        ∧ (scanGo fetchRaw keep startMs endMs needed maxRawPages fuel e).2
          = List.range' e.nextRawPage k
        ∧ (k = 0 ∨ e.scannedPages + k ≤ maxRawPages) := by
  intro fuel
  induction fuel with
  | zero =>
    intro e _
    exact ⟨0, [], by simp [scanGo], by simp [scanGo], by simp [scanGo],
      by simp [scanGo], by simp [scanGo, List.range'], Or.inl rfl⟩
  | succ fuel ih =>
    intro e hfuel
    by_cases hg : e.rows.length < needed ∧ e.exhausted = false ∧ e.scannedPages < maxRawPages
    · simp only [scanGo, if_pos hg]
      by_cases hemp : (fetchRaw e.nextRawPage).isEmpty = true
      · rw [if_pos hemp]
        exact ⟨1, [], rfl, rfl, rfl, by simp, by simp [List.range'],
          Or.inr (by omega)⟩
      · rw [if_neg hemp]
        by_cases hcross : crossedStartBoundary startMs (fetchRaw e.nextRawPage) = true
        · rw [if_pos hcross]
          exact ⟨1, (fetchRaw e.nextRawPage).filter (rowPasses startMs endMs keep),
            rfl, rfl, rfl, by simp, by simp [List.range'], Or.inr (by omega)⟩
        · rw [if_neg hcross]
          set e2 : RepliesCacheEntry :=
            { e with
              nextRawPage := e.nextRawPage + 1,
              scannedPages := e.scannedPages + 1,
              rows := e.rows ++ (fetchRaw e.nextRawPage).filter (rowPasses startMs endMs keep) }
            with he2
          have hs2 : e2.scannedPages = e.scannedPages + 1 := rfl
          have hn2 : e2.nextRawPage = e.nextRawPage + 1 := rfl
          have hx2 : e2.expiresAt = e.expiresAt := rfl
          have hr2 : e2.rows
              = e.rows ++ (fetchRaw e.nextRawPage).filter (rowPasses startMs endMs keep) := rfl
          obtain ⟨k, tail, h1, h2, h3, h4, h5, h6⟩ := ih e2 (by rw [hs2]; omega)
          refine ⟨k + 1, (fetchRaw e.nextRawPage).filter (rowPasses startMs endMs keep) ++ tail,
            ?_, ?_, ?_, ?_, ?_, Or.inr ?_⟩
          · show (scanGo fetchRaw keep startMs endMs needed maxRawPages fuel e2).1.scannedPages = _
            rw [h1, hs2]
            omega
          · show (scanGo fetchRaw keep startMs endMs needed maxRawPages fuel e2).1.nextRawPage = _
            rw [h2, hn2]
            omega
          · show (scanGo fetchRaw keep startMs endMs needed maxRawPages fuel e2).1.expiresAt = _
            rw [h3, hx2]
          · show (scanGo fetchRaw keep startMs endMs needed maxRawPages fuel e2).1.rows = _
            rw [h4, hr2, List.append_assoc]
          · show e.nextRawPage
                :: (scanGo fetchRaw keep startMs endMs needed maxRawPages fuel e2).2 = _
            rw [h5, hn2, List.range'_succ]
          · rw [hs2] at h1 h6
            omega
    · exact ⟨0, [], by simp [scanGo, if_neg hg], by simp [scanGo, if_neg hg],
        by simp [scanGo, if_neg hg], by simp [scanGo, if_neg hg],
        by simp [scanGo, if_neg hg, List.range'], Or.inl rfl⟩

/-- When the loop guard is false on entry (enough rows buffered, or the entry
is exhausted, or the raw-page cap is reached), the scan fetches nothing and
leaves the entry untouched. -/
theorem scanRawPages_guard_false (fetchRaw : Nat → List ReplyRow)
    (keep : ReplyRow → Bool) (startMs endMs : Option Nat)
    (needed maxRawPages : Nat) (e : RepliesCacheEntry)
    (hg : ¬(e.rows.length < needed ∧ e.exhausted = false ∧ e.scannedPages < maxRawPages)) :
    scanRawPages fetchRaw keep startMs endMs needed maxRawPages e = (e, []) := by
  rw [scanRawPages]
  cases maxRawPages - e.scannedPages with
  | zero => rfl
  | succ n => simp only [scanGo, if_neg hg]

theorem scanRawPages_spec (fetchRaw : Nat → List ReplyRow) (keep : ReplyRow → Bool)
    (startMs endMs : Option Nat) (needed maxRawPages : Nat) (e : RepliesCacheEntry) :
    ∃ k tail,
      (scanRawPages fetchRaw keep startMs endMs needed maxRawPages e).1.scannedPages
        = e.scannedPages + k
      ∧ (scanRawPages fetchRaw keep startMs endMs needed maxRawPages e).1.nextRawPage
        = e.nextRawPage + k
      ∧ (scanRawPages fetchRaw keep startMs endMs needed maxRawPages e).1.expiresAt
        = e.expiresAt
      ∧ (scanRawPages fetchRaw keep startMs endMs needed maxRawPages e).1.rows
        = e.rows ++ tail
      ∧ (scanRawPages fetchRaw keep startMs endMs needed maxRawPages e).2
        = List.range' e.nextRawPage k
      ∧ (k = 0 ∨ e.scannedPages + k ≤ maxRawPages) :=
  scanGo_spec fetchRaw keep startMs endMs needed maxRawPages
    (maxRawPages - e.scannedPages) e (le_refl _)

/-- A `getFilteredRepliesStreamPage` call on a live (not expired) cached
entry: the raw pages it fetches are exactly the `k` consecutive indices
starting at the entry's cursor, the cursor and `scannedPages` both advance by
`k`, the expiry is unchanged, the row buffer only grows by appending, and if
at least one page was fetched the final `scannedPages` is at most the cap. -/
theorem getPage_live_spec (fetchRaw : Nat → List ReplyRow) (keep : ReplyRow → Bool)
    (startMs endMs : Option Nat) (ttlMs maxRawPages now pageReq perPageReq : Nat)
    (e : RepliesCacheEntry) (hlt : now < e.expiresAt) :
    ∃ k tail,
      (getFilteredRepliesStreamPage fetchRaw keep startMs endMs ttlMs maxRawPages now
          (some e) pageReq perPageReq).entry.scannedPages = e.scannedPages + k
      ∧ (getFilteredRepliesStreamPage fetchRaw keep startMs endMs ttlMs maxRawPages now
          (some e) pageReq perPageReq).entry.nextRawPage = e.nextRawPage + k
      ∧ (getFilteredRepliesStreamPage fetchRaw keep startMs endMs ttlMs maxRawPages now
          (some e) pageReq perPageReq).entry.expiresAt = e.expiresAt
      ∧ (getFilteredRepliesStreamPage fetchRaw keep startMs endMs ttlMs maxRawPages now
          (some e) pageReq perPageReq).entry.rows = e.rows ++ tail
      ∧ (getFilteredRepliesStreamPage fetchRaw keep startMs endMs ttlMs maxRawPages now
          (some e) pageReq perPageReq).fetchedPages = List.range' e.nextRawPage k
      ∧ (k = 0 ∨ e.scannedPages + k ≤ maxRawPages) := by
  have hsel : selectEntry (some e) now ttlMs = e := by
    simp [selectEntry, if_neg (Nat.not_le.mpr hlt)]
  rw [show getFilteredRepliesStreamPage fetchRaw keep startMs endMs ttlMs maxRawPages now
      (some e) pageReq perPageReq
    = servePage fetchRaw keep startMs endMs maxRawPages (selectEntry (some e) now ttlMs)
        (max 1 (min 1000 pageReq)) (max 1 (min 200 perPageReq)) from rfl, hsel]
  exact scanRawPages_spec fetchRaw keep startMs endMs _ maxRawPages e

/-- C4: once a filtered-stream entry is marked `exhausted` (which the scan
loop does exactly when an empty raw page came back, lines 863-866, or the
scan crossed the window's start boundary, lines 876-884), a page request made
while the entry is live (`now < expiresAt`) performs no raw-page fetch at all
and leaves the entry untouched; and once `expiresAt ≤ now` the request
behaves exactly as if no entry existed — the entry is discarded and rebuilt
from empty. -/
theorem stream_exhaustion_short_circuit (fetchRaw : Nat → List ReplyRow)
    (keep : ReplyRow → Bool) (startMs endMs : Option Nat)
    (ttlMs maxRawPages now pageReq perPageReq : Nat) (e : RepliesCacheEntry)
    (hex : e.exhausted = true) :
    (now < e.expiresAt →
      (getFilteredRepliesStreamPage fetchRaw keep startMs endMs ttlMs maxRawPages now
          (some e) pageReq perPageReq).fetchedPages = []
      ∧ (getFilteredRepliesStreamPage fetchRaw keep startMs endMs ttlMs maxRawPages now
          (some e) pageReq perPageReq).entry = e)
    ∧ (e.expiresAt ≤ now →
        getFilteredRepliesStreamPage fetchRaw keep startMs endMs ttlMs maxRawPages now
            (some e) pageReq perPageReq
          = getFilteredRepliesStreamPage fetchRaw keep startMs endMs ttlMs maxRawPages now
              none pageReq perPageReq) := by
  constructor
  · intro hlt
    have hsel : selectEntry (some e) now ttlMs = e := by
      simp [selectEntry, if_neg (Nat.not_le.mpr hlt)]
    have hscan : ∀ needed, scanRawPages fetchRaw keep startMs endMs needed maxRawPages e
        = (e, []) :=
      fun needed =>
        scanRawPages_guard_false fetchRaw keep startMs endMs needed maxRawPages e
          (by simp [hex])
    constructor
    · simp only [getFilteredRepliesStreamPage, servePage, hsel]
      rw [hscan]
    · simp only [getFilteredRepliesStreamPage, servePage, hsel]
      rw [hscan]
  · intro hge
    have hsel : selectEntry (some e) now ttlMs = selectEntry none now ttlMs := by
      simp [selectEntry, if_pos hge]
    simp only [getFilteredRepliesStreamPage]
    rw [hsel]

/-- Witness for `stream_exhaustion_short_circuit`: an exhausted live entry
(then the same entry after expiry), a one-row-per-page upstream. -/
theorem stream_exhaustion_short_circuit_witness :
    ((getFilteredRepliesStreamPage (fun _ => [⟨10, 0⟩]) (fun _ => true) none none
        60000 5 50 (some ⟨100, [], true, 4, 3⟩) 1 1).fetchedPages = []
      ∧ (getFilteredRepliesStreamPage (fun _ => [⟨10, 0⟩]) (fun _ => true) none none
          60000 5 50 (some ⟨100, [], true, 4, 3⟩) 1 1).entry = ⟨100, [], true, 4, 3⟩)
    ∧ getFilteredRepliesStreamPage (fun _ => [⟨10, 0⟩]) (fun _ => true) none none
          60000 5 100 (some ⟨100, [], true, 4, 3⟩) 1 1
        = getFilteredRepliesStreamPage (fun _ => [⟨10, 0⟩]) (fun _ => true) none none
            60000 5 100 none 1 1 := by
  have h1 := stream_exhaustion_short_circuit (fun _ => [⟨10, 0⟩]) (fun _ => true)
    none none 60000 5 50 1 1 ⟨100, [], true, 4, 3⟩ rfl
  have h2 := stream_exhaustion_short_circuit (fun _ => [⟨10, 0⟩]) (fun _ => true)
    none none 60000 5 100 1 1 ⟨100, [], true, 4, 3⟩ rfl
  exact ⟨h1.1 (by decide), h2.2 (by decide)⟩

/-- Three consecutive blocks of raw page indices are pairwise strictly
increasing. -/
theorem pairwise_lt_range'_three (s k1 k2 k3 : Nat) :
    (List.range' s k1 ++ List.range' (s + k1) k2
      ++ List.range' (s + k1 + k2) k3).Pairwise (· < ·) := by
  rw [List.range'_append_1, show s + k1 + k2 = s + (k2 + k1) by omega,
    List.range'_append_1]
  exact List.pairwise_lt_range' s (k3 + (k2 + k1))

/-- C3: three sequential page requests against the same key, each made while
the entry is live (before its `expiresAt`, so the entry is threaded through
unchanged rather than rebuilt).  The raw cursor `nextRawPage` never
decreases; every raw page index fetched is at least the cursor the entry
started with (no index below the already-consumed range is ever re-requested);
the indices fetched across the three calls are pairwise strictly increasing
(so no raw page index is ever fetched twice within the entry's lifetime); and
in particular every index fetched while serving the third request is ≥ every
index fetched while serving the second. -/
theorem stream_monotone_cursor (fetchRaw : Nat → List ReplyRow)
    (keep : ReplyRow → Bool) (startMs endMs : Option Nat)
    (ttlMs maxRawPages now1 now2 now3 p1 p2 p3 pp : Nat) (e0 : RepliesCacheEntry) :
    ∀ r1 r2 r3 : StreamPageResult,
      r1 = getFilteredRepliesStreamPage fetchRaw keep startMs endMs ttlMs maxRawPages
          now1 (some e0) p1 pp →
      r2 = getFilteredRepliesStreamPage fetchRaw keep startMs endMs ttlMs maxRawPages
          now2 (some r1.entry) p2 pp →
      r3 = getFilteredRepliesStreamPage fetchRaw keep startMs endMs ttlMs maxRawPages
          now3 (some r2.entry) p3 pp →
      now1 < e0.expiresAt → now2 < r1.entry.expiresAt → now3 < r2.entry.expiresAt →
      (e0.nextRawPage ≤ r1.entry.nextRawPage
        ∧ r1.entry.nextRawPage ≤ r2.entry.nextRawPage
        ∧ r2.entry.nextRawPage ≤ r3.entry.nextRawPage)
      ∧ (∀ a ∈ r1.fetchedPages, e0.nextRawPage ≤ a)
      ∧ (r1.fetchedPages ++ r2.fetchedPages ++ r3.fetchedPages).Pairwise (· < ·)
      ∧ (∀ a ∈ r2.fetchedPages, ∀ b ∈ r3.fetchedPages, a ≤ b) := by
  intro r1 r2 r3 hr1 hr2 hr3 hl1 hl2 hl3
  obtain ⟨k1, t1, s1, n1, x1, w1, f1, c1⟩ :=
    getPage_live_spec fetchRaw keep startMs endMs ttlMs maxRawPages now1 p1 pp e0 hl1
  rw [← hr1] at s1 n1 x1 w1 f1
  obtain ⟨k2, t2, s2, n2, x2, w2, f2, c2⟩ :=
    getPage_live_spec fetchRaw keep startMs endMs ttlMs maxRawPages now2 p2 pp r1.entry hl2
  rw [← hr2] at s2 n2 x2 w2 f2
  obtain ⟨k3, t3, s3, n3, x3, w3, f3, c3⟩ :=
    getPage_live_spec fetchRaw keep startMs endMs ttlMs maxRawPages now3 p3 pp r2.entry hl3
  rw [← hr3] at s3 n3 x3 w3 f3
  refine ⟨⟨by omega, by omega, by omega⟩, ?_, ?_, ?_⟩
  · intro a ha
    rw [f1] at ha
    exact (List.mem_range'_1.mp ha).1
  · have n2a : r2.entry.nextRawPage = e0.nextRawPage + k1 + k2 := by omega
    have f2a : r2.fetchedPages = List.range' (e0.nextRawPage + k1) k2 := by
      rw [f2, n1]
    have f3a : r3.fetchedPages = List.range' (e0.nextRawPage + k1 + k2) k3 := by
      rw [f3, n2a]
    rw [f1, f2a, f3a]
    exact pairwise_lt_range'_three e0.nextRawPage k1 k2 k3
  · intro a ha b hb
    rw [f2] at ha
    rw [f3] at hb
    have h1 := (List.mem_range'_1.mp ha).2
    have h2 := (List.mem_range'_1.mp hb).1
    omega

/-- The upstream of the witness scenario: every raw page has a single row
dated 10. -/
def streamDemoFetch : Nat → List ReplyRow := fun _ => [⟨10, 0⟩]

/-- Witness scenario: page 1, then 2, then 3, with `perPage = 1`, against a
fresh entry created at time 0 (ttl 60000, cap 5). -/
def streamDemoR1 : StreamPageResult :=
  getFilteredRepliesStreamPage streamDemoFetch (fun _ => true) none none
    60000 5 1 (some (freshRepliesEntry 0 60000)) 1 1

def streamDemoR2 : StreamPageResult :=
  getFilteredRepliesStreamPage streamDemoFetch (fun _ => true) none none
    60000 5 2 (some streamDemoR1.entry) 2 1

def streamDemoR3 : StreamPageResult :=
  getFilteredRepliesStreamPage streamDemoFetch (fun _ => true) none none
    60000 5 3 (some streamDemoR2.entry) 3 1

/-- Witness for `stream_monotone_cursor` on the demo scenario. -/
theorem stream_monotone_cursor_witness :
    ((freshRepliesEntry 0 60000).nextRawPage ≤ streamDemoR1.entry.nextRawPage
      ∧ streamDemoR1.entry.nextRawPage ≤ streamDemoR2.entry.nextRawPage
      ∧ streamDemoR2.entry.nextRawPage ≤ streamDemoR3.entry.nextRawPage)
    ∧ (streamDemoR1.fetchedPages ++ streamDemoR2.fetchedPages
        ++ streamDemoR3.fetchedPages).Pairwise (· < ·) := by
  have h := stream_monotone_cursor streamDemoFetch (fun _ => true) none none
    60000 5 1 2 3 1 2 3 1 (freshRepliesEntry 0 60000)
    streamDemoR1 streamDemoR2 streamDemoR3 rfl rfl rfl
    (by decide) (by decide) (by decide)
  exact ⟨h.1, h.2.2.1⟩

/-- C10: the raw-page scan cap is cumulative over the entry's lifetime, not
per call.  The configured cap is clamped to [1, 5000]; a fresh entry starts
with `scannedPages = 0`; on every live-entry page request the entry's
`scannedPages` grows by exactly the number of raw fetches the call made (so
it counts every raw fetch since the entry was created); a call entered with
`scannedPages ≤ cap` leaves it `≤ cap` (the loop guard `scannedPages <
maxRawPages` stops the scan at the cap); and once `scannedPages` has reached
the cap, a page request while the entry is live performs no raw fetch at all
and leaves the entry untouched — whether or not the stream is exhausted. -/
theorem stream_scan_cap_cumulative (fetchRaw : Nat → List ReplyRow)
    (keep : ReplyRow → Bool) (startMs endMs : Option Nat) (env : Option Nat)
    (ttlMs maxRawPages now pageReq perPageReq : Nat) (e : RepliesCacheEntry) :
    (1 ≤ getRepliesMaxRawPages env ∧ getRepliesMaxRawPages env ≤ 5000)
    ∧ (freshRepliesEntry now ttlMs).scannedPages = 0
    ∧ (now < e.expiresAt →
        (getFilteredRepliesStreamPage fetchRaw keep startMs endMs ttlMs maxRawPages now
            (some e) pageReq perPageReq).entry.scannedPages
          = e.scannedPages
            + (getFilteredRepliesStreamPage fetchRaw keep startMs endMs ttlMs maxRawPages
                now (some e) pageReq perPageReq).fetchedPages.length)
    ∧ (now < e.expiresAt → e.scannedPages ≤ maxRawPages →
        (getFilteredRepliesStreamPage fetchRaw keep startMs endMs ttlMs maxRawPages now
            (some e) pageReq perPageReq).entry.scannedPages ≤ maxRawPages)
    ∧ (now < e.expiresAt → maxRawPages ≤ e.scannedPages →
        (getFilteredRepliesStreamPage fetchRaw keep startMs endMs ttlMs maxRawPages now
            (some e) pageReq perPageReq).fetchedPages = []
        ∧ (getFilteredRepliesStreamPage fetchRaw keep startMs endMs ttlMs maxRawPages now
            (some e) pageReq perPageReq).entry = e) := by
  refine ⟨⟨?_, ?_⟩, rfl, ?_, ?_, ?_⟩
  · simp [getRepliesMaxRawPages]
  · simp [getRepliesMaxRawPages]
  · intro hlt
    obtain ⟨k, t, hs, hn, hx, hw, hf, hc⟩ :=
      getPage_live_spec fetchRaw keep startMs endMs ttlMs maxRawPages now pageReq
        perPageReq e hlt
    rw [hs, hf, List.length_range']
  · intro hlt hcap
    obtain ⟨k, t, hs, hn, hx, hw, hf, hc⟩ :=
      getPage_live_spec fetchRaw keep startMs endMs ttlMs maxRawPages now pageReq
        perPageReq e hlt
    rw [hs]
    omega
  · intro hlt hcap
    have hsel : selectEntry (some e) now ttlMs = e := by
      simp [selectEntry, if_neg (Nat.not_le.mpr hlt)]
    have hscan : ∀ needed, scanRawPages fetchRaw keep startMs endMs needed maxRawPages e
        = (e, []) :=
      fun needed =>
        scanRawPages_guard_false fetchRaw keep startMs endMs needed maxRawPages e
          (fun hcon => absurd hcon.2.2 (Nat.not_lt.mpr hcap))
    constructor
    · simp only [getFilteredRepliesStreamPage, servePage, hsel]
      rw [hscan]
    · simp only [getFilteredRepliesStreamPage, servePage, hsel]
      rw [hscan]

/-- Witness for `stream_scan_cap_cumulative`: an unexhausted live entry that
has already scanned 5 raw pages with the cap at 5. -/
theorem stream_scan_cap_cumulative_witness :
    (1 ≤ getRepliesMaxRawPages none ∧ getRepliesMaxRawPages none ≤ 5000)
    ∧ ((getFilteredRepliesStreamPage streamDemoFetch (fun _ => true) none none
          60000 5 50 (some ⟨1000, [], false, 6, 5⟩) 1 1).fetchedPages = []
      ∧ (getFilteredRepliesStreamPage streamDemoFetch (fun _ => true) none none
          60000 5 50 (some ⟨1000, [], false, 6, 5⟩) 1 1).entry = ⟨1000, [], false, 6, 5⟩)
    ∧ (getFilteredRepliesStreamPage streamDemoFetch (fun _ => true) none none
          60000 5 50 (some ⟨1000, [], false, 6, 5⟩) 1 1).entry.scannedPages
        = (⟨1000, [], false, 6, 5⟩ : RepliesCacheEntry).scannedPages
          + (getFilteredRepliesStreamPage streamDemoFetch (fun _ => true) none none
              60000 5 50 (some ⟨1000, [], false, 6, 5⟩) 1 1).fetchedPages.length := by
  have h := stream_scan_cap_cumulative streamDemoFetch (fun _ => true) none none none
    60000 5 50 1 1 ⟨1000, [], false, 6, 5⟩
  exact ⟨h.1, h.2.2.2.2 (by decide) (by decide), h.2.2.1 (by decide)⟩

end Dashboard
